import Mathlib

/-!
Verification of the sliding-window rate limiter middleware of the imdb-api
repository (`src/middlewares/rateLimiter.ts`).

The middleware closes over a `Map<string, number[]>` from client key to the
list of stored request timestamps (milliseconds since epoch, from
`Date.now()`), and on each request:
  * derives the client key as `req.ip || 'unknown'`;
  * ensures the key is present in the map;
  * filters the stored list with `(time) => now - time * 1000 < windowInSeconds`;
  * stores the filtered list back;
  * if the filtered list has length `>= maxRequests`, responds
    `res.status(429).json('Too many requests')` without calling `next()`;
  * otherwise pushes `now` onto the stored list (in-place, so the map entry
    becomes the filtered list with `now` appended) and calls `next()`.

JavaScript numbers are modelled as `Int` (all values involved are integral),
`req.ip : string | undefined` as `Option String` (the empty string and
`undefined` are both falsy, so both fall back to `'unknown'`), and the `Map`
as an association list with first-match lookup.
-/

/-- A JSON value, as handed to `res.json(...)`: enough structure to tell a
bare string payload apart from an object-wrapped one. -/
inductive Json where
  | str : String → Json
  | num : Int → Json
  | obj : List (String × Json) → Json

/-- Outcome of one middleware invocation: either `next()` was called and the
request proceeds downstream, or a response with the given HTTP status and
JSON body was sent. -/
inductive Decision where
  | next : Decision
  | reject : Int → Json → Decision

/-- Whether the decision passed the request downstream (`next()` ran). -/
def Decision.isNext : Decision → Bool
  | Decision.next => true
  | Decision.reject _ _ => false

/-- The options object of the limiter (`IRateLimiterOptions`). -/
structure IRateLimiterOptions where
  windowInSeconds : Int
  maxRequests : Int
deriving DecidableEq

/-- The `Map<string, number[]>` closed over by the middleware, as an
association list with first-match lookup. -/
abbrev Registry := List (String × List Int)

/-- `Map.get` (`none` when the key is absent, mirroring `Map.has` false). -/
def regGet (r : Registry) (k : String) : Option (List Int) :=
  match r with
  | [] => none
  | (k', v) :: rest => if k' = k then some v else regGet rest k

/-- `Map.set`: replace the entry in place when present, append when absent. -/
def regSet (r : Registry) (k : String) (v : List Int) : Registry :=
  match r with
  | [] => [(k, v)]
  | (k', v') :: rest => if k' = k then (k, v) :: rest else (k', v') :: regSet rest k v

/-- `const ip = req.ip || 'unknown'`: `undefined` and the empty string are
falsy, so both yield the sentinel `'unknown'`. -/
def clientKey (reqIp : Option String) : String :=
  match reqIp with
  | none => "unknown"
  | some s => if s = "" then "unknown" else s

/-- The filter the code applies to the stored timestamps:
`userRequests.filter((time) => now - time * 1000 < windowInSeconds)`. -/
def prunedSeq (opts : IRateLimiterOptions) (r : Registry) (k : String) (now : Int) :
    List Int :=
  ((regGet r k).getD []).filter (fun time => decide (now - time * 1000 < opts.windowInSeconds))

/-- One invocation of the middleware returned by `rateLimiter(opts)`, as a
function of the captured registry, the request's `req.ip` and `Date.now()`:
returns the updated registry and the decision. Mirrors the body of
`rateLimiter.ts` line by line; the final `recent.push(now)` mutates the very
array just stored under the key, so the admitted entry is the filtered list
with `now` appended. -/
def rateLimiterStep (opts : IRateLimiterOptions) (requests : Registry)
    (reqIp : Option String) (now : Int) : Registry × Decision :=
  let ip := clientKey reqIp
  let requests1 :=
    match regGet requests ip with
    | none => regSet requests ip []
    | some _ => requests
  let userRequests := (regGet requests1 ip).getD []
  let recent := userRequests.filter (fun time => decide (now - time * 1000 < opts.windowInSeconds))
  let requests2 := regSet requests1 ip recent
  if opts.maxRequests ≤ (recent.length : Int) then
    (requests2, Decision.reject 429 (Json.str "Too many requests"))
  else
    (regSet requests2 ip (recent ++ [now]), Decision.next)

/-- A whole run of the middleware on a list of calls `(req.ip, Date.now())`,
starting from a given registry: final registry and the decision of each call. -/
def runCalls (opts : IRateLimiterOptions) (r : Registry) :
    List (Option String × Int) → Registry × List Decision
  | [] => (r, [])
  | c :: rest =>
      let p := rateLimiterStep opts r c.1 c.2
      let q := runCalls opts p.1 rest
      (q.1, p.2 :: q.2)

/-- The times at which the run called `next()` (the ADMIT decisions). -/
def nextTimesFrom (opts : IRateLimiterOptions) (r : Registry) :
    List (Option String × Int) → List Int
  | [] => []
  | c :: rest =>
      let p := rateLimiterStep opts r c.1 c.2
      (if p.2.isNext then [c.2] else []) ++ nextTimesFrom opts p.1 rest

/-- The pruning predicate the specification prescribes: keep a stored
timestamp `t` iff `now - t < windowInSeconds * 1000` (age strictly below the
window, both in milliseconds). Stated from the spec's words, for comparison
with the code's filter in `prunedSeq`. -/
def specKeep (opts : IRateLimiterOptions) (now time : Int) : Bool :=
  decide (now - time < opts.windowInSeconds * 1000)

-- Basic registry lemmas

theorem regGet_regSet_self (r : Registry) (k : String) (v : List Int) :
    regGet (regSet r k v) k = some v := by
  induction r with
  | nil => simp [regGet, regSet]
  | cons hd tl ih =>
      obtain ⟨k', v'⟩ := hd
      by_cases h : k' = k
      · simp [regGet, regSet, h]
      · simp [regGet, regSet, h, ih]

theorem regGet_regSet_ne (r : Registry) (k k' : String) (v : List Int)
    (h : k' ≠ k) : regGet (regSet r k v) k' = regGet r k' := by
  have h' : ¬ k = k' := fun hh => h hh.symm
  induction r with
  | nil => simp [regGet, regSet, h']
  | cons hd tl ih =>
      obtain ⟨k0, v0⟩ := hd
      by_cases h0 : k0 = k
      · subst h0
        simp [regGet, regSet, h']
      · simp [regGet, regSet, h0, ih]

theorem regSet_regSet_self (r : Registry) (k : String) (v w : List Int) :
    regSet (regSet r k v) k w = regSet r k w := by
  induction r with
  | nil => simp [regSet]
  | cons hd tl ih =>
      obtain ⟨k0, v0⟩ := hd
      by_cases h0 : k0 = k
      · simp [regSet, h0]
      · simp [regSet, h0, ih]

/-- The middleware invocation in closed form: prune the stored list (an
absent key behaving as the empty list), then either reject and store the
pruned list, or store the pruned list with `now` appended and call `next()`. -/
theorem rateLimiterStep_eq (opts : IRateLimiterOptions) (r : Registry)
    (reqIp : Option String) (now : Int) :
    rateLimiterStep opts r reqIp now =
      if opts.maxRequests ≤ ((prunedSeq opts r (clientKey reqIp) now).length : Int) then
        (regSet r (clientKey reqIp) (prunedSeq opts r (clientKey reqIp) now),
          Decision.reject 429 (Json.str "Too many requests"))
      else
        (regSet r (clientKey reqIp) (prunedSeq opts r (clientKey reqIp) now ++ [now]),
          Decision.next) := by
  unfold rateLimiterStep prunedSeq
  cases hget : regGet r (clientKey reqIp) with
  | none =>
      simp only [hget, Option.getD_none, regGet_regSet_self, Option.getD_some,
        regSet_regSet_self]
  | some vals =>
      simp only [hget, Option.getD_some, regSet_regSet_self]

/-- The rejecting branch of the middleware. -/
theorem rateLimiterStep_reject (opts : IRateLimiterOptions) (r : Registry)
    (reqIp : Option String) (now : Int)
    (h : opts.maxRequests ≤ ((prunedSeq opts r (clientKey reqIp) now).length : Int)) :
    rateLimiterStep opts r reqIp now =
      (regSet r (clientKey reqIp) (prunedSeq opts r (clientKey reqIp) now),
        Decision.reject 429 (Json.str "Too many requests")) := by
  rw [rateLimiterStep_eq, if_pos h]

/-- The branch of the middleware that calls `next()`. -/
theorem rateLimiterStep_next (opts : IRateLimiterOptions) (r : Registry)
    (reqIp : Option String) (now : Int)
    (h : ¬ opts.maxRequests ≤ ((prunedSeq opts r (clientKey reqIp) now).length : Int)) :
    rateLimiterStep opts r reqIp now =
      (regSet r (clientKey reqIp) (prunedSeq opts r (clientKey reqIp) now ++ [now]),
        Decision.next) := by
  rw [rateLimiterStep_eq, if_neg h]

/-- The decision of an invocation depends only on the pruned stored list. -/
theorem rateLimiterStep_snd_eq (opts : IRateLimiterOptions) (r : Registry)
    (reqIp : Option String) (now : Int) :
    (rateLimiterStep opts r reqIp now).2 =
      if opts.maxRequests ≤ ((prunedSeq opts r (clientKey reqIp) now).length : Int) then
        Decision.reject 429 (Json.str "Too many requests")
      else Decision.next := by
  by_cases h : opts.maxRequests ≤ ((prunedSeq opts r (clientKey reqIp) now).length : Int)
  · rw [rateLimiterStep_reject opts r reqIp now h, if_pos h]
  · rw [rateLimiterStep_next opts r reqIp now h, if_neg h]

/-- An invocation touches no registry entry other than its own client key. -/
theorem rateLimiterStep_frame (opts : IRateLimiterOptions) (r : Registry)
    (reqIp : Option String) (now : Int) (k : String) (h : k ≠ clientKey reqIp) :
    regGet (rateLimiterStep opts r reqIp now).1 k = regGet r k := by
  by_cases hfull : opts.maxRequests ≤ ((prunedSeq opts r (clientKey reqIp) now).length : Int)
  · rw [rateLimiterStep_reject opts r reqIp now hfull]
    exact regGet_regSet_ne r (clientKey reqIp) k _ h
  · rw [rateLimiterStep_next opts r reqIp now hfull]
    exact regGet_regSet_ne r (clientKey reqIp) k _ h

/-- When every stored timestamp passes the code's filter, pruning is the
identity. -/
theorem prunedSeq_of_forall (opts : IRateLimiterOptions) (r : Registry) (k : String)
    (now : Int)
    (h : ∀ v ∈ (regGet r k).getD [], now - v * 1000 < opts.windowInSeconds) :
    prunedSeq opts r k now = (regGet r k).getD [] := by
  unfold prunedSeq
  exact List.filter_eq_self.mpr (fun v hv => decide_eq_true (h v hv))

theorem runCalls_cons (opts : IRateLimiterOptions) (r : Registry)
    (c : Option String × Int) (rest : List (Option String × Int)) :
    runCalls opts r (c :: rest) =
      ((runCalls opts (rateLimiterStep opts r c.1 c.2).1 rest).1,
        (rateLimiterStep opts r c.1 c.2).2
          :: (runCalls opts (rateLimiterStep opts r c.1 c.2).1 rest).2) := rfl

theorem nextTimesFrom_cons (opts : IRateLimiterOptions) (r : Registry)
    (c : Option String × Int) (rest : List (Option String × Int)) :
    nextTimesFrom opts r (c :: rest) =
      (if (rateLimiterStep opts r c.1 c.2).2.isNext then [c.2] else [])
        ++ nextTimesFrom opts (rateLimiterStep opts r c.1 c.2).1 rest := rfl

theorem nextTimesFrom_cons_reject (opts : IRateLimiterOptions) (r : Registry)
    (reqIp : Option String) (now : Int) (rest : List (Option String × Int))
    (h : opts.maxRequests ≤ ((prunedSeq opts r (clientKey reqIp) now).length : Int)) :
    nextTimesFrom opts r ((reqIp, now) :: rest) =
      nextTimesFrom opts
        (regSet r (clientKey reqIp) (prunedSeq opts r (clientKey reqIp) now)) rest := by
  rw [nextTimesFrom_cons]
  rw [rateLimiterStep_reject opts r reqIp now h]
  rfl

theorem nextTimesFrom_cons_next (opts : IRateLimiterOptions) (r : Registry)
    (reqIp : Option String) (now : Int) (rest : List (Option String × Int))
    (h : ¬ opts.maxRequests ≤ ((prunedSeq opts r (clientKey reqIp) now).length : Int)) :
    nextTimesFrom opts r ((reqIp, now) :: rest) =
      now :: nextTimesFrom opts
        (regSet r (clientKey reqIp) (prunedSeq opts r (clientKey reqIp) now ++ [now])) rest := by
  rw [nextTimesFrom_cons]
  rw [rateLimiterStep_next opts r reqIp now h]
  rfl

/-- Counting lemma behind the quota invariant: as long as the code's filter
keeps every stored and every incoming timestamp (which is the case for real
`Date.now()` inputs, where `time * 1000` dwarfs `now`), the middleware calls
`next()` at most `maxRequests - stored` more times for a given client key. -/
theorem nextTimesFrom_length_le (opts : IRateLimiterOptions) (reqIp : Option String) :
    ∀ (times : List Int) (r : Registry),
      (∀ t ∈ times, ∀ v ∈ (regGet r (clientKey reqIp)).getD [],
          t - v * 1000 < opts.windowInSeconds) →
      (∀ s ∈ times, ∀ t ∈ times, s - t * 1000 < opts.windowInSeconds) →
      (nextTimesFrom opts r (times.map (fun t => (reqIp, t)))).length
        ≤ (opts.maxRequests - (((regGet r (clientKey reqIp)).getD []).length : Int)).toNat := by
  intro times
  induction times with
  | nil =>
      intro r _ _
      simp [nextTimesFrom]
  | cons now rest ih =>
      intro r h1 h2
      have hmemnow : now ∈ now :: rest := by simp
      have hkeep : prunedSeq opts r (clientKey reqIp) now = (regGet r (clientKey reqIp)).getD [] :=
        prunedSeq_of_forall opts r (clientKey reqIp) now (h1 now hmemnow)
      have h2' : ∀ s ∈ rest, ∀ t ∈ rest, s - t * 1000 < opts.windowInSeconds :=
        fun s hs t ht =>
          h2 s (List.mem_cons_of_mem _ hs) t (List.mem_cons_of_mem _ ht)
      rw [List.map_cons]
      by_cases hfull :
          opts.maxRequests ≤ ((((regGet r (clientKey reqIp)).getD []).length : Int))
      · rw [nextTimesFrom_cons_reject opts r reqIp now _ (by rw [hkeep]; exact hfull)]
        rw [hkeep]
        have h1' : ∀ t ∈ rest,
            ∀ v ∈ (regGet (regSet r (clientKey reqIp)
                ((regGet r (clientKey reqIp)).getD [])) (clientKey reqIp)).getD [],
            t - v * 1000 < opts.windowInSeconds := by
          intro t ht v hv
          rw [regGet_regSet_self] at hv
          exact h1 t (List.mem_cons_of_mem _ ht) v (by simpa using hv)
        have hrec := ih (regSet r (clientKey reqIp) ((regGet r (clientKey reqIp)).getD []))
          h1' h2'
        rw [regGet_regSet_self] at hrec
        simpa using hrec
      · rw [nextTimesFrom_cons_next opts r reqIp now _ (by rw [hkeep]; exact hfull)]
        rw [hkeep]
        have h1'' : ∀ t ∈ rest,
            ∀ v ∈ (regGet (regSet r (clientKey reqIp)
                ((regGet r (clientKey reqIp)).getD [] ++ [now])) (clientKey reqIp)).getD [],
            t - v * 1000 < opts.windowInSeconds := by
          intro t ht v hv
          rw [regGet_regSet_self] at hv
          simp only [Option.getD_some, List.mem_append, List.mem_singleton] at hv
          rcases hv with hv | hv
          · exact h1 t (List.mem_cons_of_mem _ ht) v hv
          · rw [hv]
            exact h2 t (List.mem_cons_of_mem _ ht) now hmemnow
        have hrec := ih (regSet r (clientKey reqIp)
          ((regGet r (clientKey reqIp)).getD [] ++ [now])) h1'' h2'
        rw [regGet_regSet_self] at hrec
        simp only [Option.getD_some, List.length_append, List.length_singleton] at hrec
        simp only [List.length_cons]
        omega

/-- Configuration used by the concrete witnesses below (window 60 s, one
request allowed). -/
def optsA : IRateLimiterOptions := ⟨60, 1⟩

/-- Configuration with `maxRequests = 0`, which makes every request reject. -/
def optsZ : IRateLimiterOptions := ⟨60, 0⟩

/-- C1 — Quota invariant: for every client key and every sequence of calls to
the middleware whose `Date.now()` values are genuine epoch-millisecond
readings (all at least `epoch` and below `1000 * epoch`, as every real clock
reading since 1970-01-21 is), and positive `windowInSeconds` and
`maxRequests`, the number of invocations that call `next()` within any
trailing window `(endT - windowInSeconds*1000, endT]` is at most
`maxRequests`. -/
theorem C1_quota_invariant (opts : IRateLimiterOptions) (reqIp : Option String)
    (times : List Int) (epoch endT : Int)
    (hw : 0 < opts.windowInSeconds) (hm : 0 < opts.maxRequests)
    (hclock : ∀ t ∈ times, epoch ≤ t ∧ t < 1000 * epoch) :
    (((nextTimesFrom opts [] (times.map (fun t => (reqIp, t)))).filter
        (fun t => decide (endT - opts.windowInSeconds * 1000 < t ∧ t ≤ endT))).length : Int)
      ≤ opts.maxRequests := by
  have hpair : ∀ s ∈ times, ∀ t ∈ times, s - t * 1000 < opts.windowInSeconds := by
    intro s hs t ht
    have hs' := hclock s hs
    have ht' := hclock t ht
    linarith [hs'.1, hs'.2, ht'.1, ht'.2]
  have h1 : ∀ t ∈ times, ∀ v ∈ (regGet ([] : Registry) (clientKey reqIp)).getD [],
      t - v * 1000 < opts.windowInSeconds := by
    intro t _ v hv
    simp [regGet] at hv
  have hmain := nextTimesFrom_length_le opts reqIp times [] h1 hpair
  simp only [regGet, Option.getD_none, List.length_nil, Nat.cast_zero, sub_zero] at hmain
  have hfil := List.length_filter_le
    (fun t => decide (endT - opts.windowInSeconds * 1000 < t ∧ t ≤ endT))
    (nextTimesFrom opts [] (times.map (fun t => (reqIp, t))))
  omega

/-- Witness for C1 at a concrete input: two rapid calls from one client with
`maxRequests = 1`; at most one `next()` falls in the trailing window ending
at the second call. -/
theorem C1_quota_invariant_witness :
    (((nextTimesFrom optsA []
        ([1700000000000, 1700000000001].map
          (fun t => ((some "a" : Option String), t)))).filter
        (fun t => decide (1700000000001 - optsA.windowInSeconds * 1000 < t
          ∧ t ≤ 1700000000001))).length : Int)
      ≤ optsA.maxRequests :=
  C1_quota_invariant optsA (some "a") [1700000000000, 1700000000001] 1700000000000
    1700000000001 (by decide) (by decide) (by decide)

/-- C2 — Window expiry fails on the code: with `windowInSeconds = 60` and
`maxRequests = 1`, a request admitted at `T = 1700000000000` is followed by a
request at `T + 60*1000 + 1`, which the code REJECTS with 429 (the claim says
it must be admitted): the filter `now - time * 1000 < windowInSeconds` keeps
the old entry because `time * 1000` dwarfs `now`. -/
theorem C2_window_expiry_code_bug :
    (runCalls optsA [] [(some "a", 1700000000000), (some "a", 1700000060001)]).2
      = [Decision.next, Decision.reject 429 (Json.str "Too many requests")] := rfl

/-- C3 — Pruning arithmetic fails on the code: at `now = T + 60001` the code's
filter keeps the stored timestamp `T = 1700000000000` (its age is 60001 ms,
beyond the 60000 ms window), whereas the specified predicate
`now - t < windowInSeconds * 1000` drops it. -/
theorem C3_pruning_arithmetic_code_bug :
    prunedSeq optsA [("a", [1700000000000])] "a" 1700000060001 = [1700000000000] ∧
    specKeep optsA 1700000060001 1700000000000 = false :=
  ⟨rfl, rfl⟩

/-- C4 — Registry recency fails on the code: after the run of C2, the entry
stored for the key still contains `T = 1700000000000`, whose age at the
decision's `now = T + 60001` is 60001 ms ≥ the 60000 ms window, so a stale
timestamp survives the decision. -/
theorem C4_recency_code_bug :
    regGet (runCalls optsA [] [(some "a", 1700000000000), (some "a", 1700000060001)]).1 "a"
      = some [1700000000000] ∧
    specKeep optsA 1700000060001 1700000000000 = false :=
  ⟨rfl, rfl⟩

/-- C5 — ADMIT path: whenever the pruned list for the client key is shorter
than `maxRequests`, the middleware calls `next()` and the registry entry for
the key becomes the pruned list with `now` appended. -/
theorem C5_next_path (opts : IRateLimiterOptions) (r : Registry)
    (reqIp : Option String) (now : Int)
    (h : ((prunedSeq opts r (clientKey reqIp) now).length : Int) < opts.maxRequests) :
    (rateLimiterStep opts r reqIp now).2 = Decision.next ∧
    regGet (rateLimiterStep opts r reqIp now).1 (clientKey reqIp)
      = some (prunedSeq opts r (clientKey reqIp) now ++ [now]) := by
  rw [rateLimiterStep_next opts r reqIp now (not_le.mpr h)]
  exact ⟨rfl, regGet_regSet_self r (clientKey reqIp) _⟩

/-- Witness for C5: first request of a fresh client is admitted and its
timestamp is stored. -/
theorem C5_next_path_witness :
    (rateLimiterStep optsA [] (some "a") 1700000000000).2 = Decision.next ∧
    regGet (rateLimiterStep optsA [] (some "a") 1700000000000).1 (clientKey (some "a"))
      = some (prunedSeq optsA [] (clientKey (some "a")) 1700000000000 ++ [1700000000000]) :=
  C5_next_path optsA [] (some "a") 1700000000000 (by decide)

/-- C6 — REJECT path: whenever the pruned list for the client key has length
at least `maxRequests`, the middleware responds 429 without calling `next()`
and persists exactly the pruned list (the rejected attempt is not appended). -/
theorem C6_reject_path (opts : IRateLimiterOptions) (r : Registry)
    (reqIp : Option String) (now : Int)
    (h : opts.maxRequests ≤ ((prunedSeq opts r (clientKey reqIp) now).length : Int)) :
    (rateLimiterStep opts r reqIp now).2
      = Decision.reject 429 (Json.str "Too many requests") ∧
    regGet (rateLimiterStep opts r reqIp now).1 (clientKey reqIp)
      = some (prunedSeq opts r (clientKey reqIp) now) := by
  rw [rateLimiterStep_reject opts r reqIp now h]
  exact ⟨rfl, regGet_regSet_self r (clientKey reqIp) _⟩

/-- Witness for C6: a second immediate request with `maxRequests = 1` is
rejected and the stored list is unchanged. -/
theorem C6_reject_path_witness :
    (rateLimiterStep optsA [("a", [1700000000000])] (some "a") 1700000000001).2
      = Decision.reject 429 (Json.str "Too many requests") ∧
    regGet (rateLimiterStep optsA [("a", [1700000000000])] (some "a") 1700000000001).1
        (clientKey (some "a"))
      = some (prunedSeq optsA [("a", [1700000000000])] (clientKey (some "a")) 1700000000001) :=
  C6_reject_path optsA [("a", [1700000000000])] (some "a") 1700000000001 (by decide)

/-- C7 — Rejection payload: every rejecting invocation responds with HTTP
status 429 and JSON body the bare string `"Too many requests"`. -/
theorem C7_rejection_payload (opts : IRateLimiterOptions) (r : Registry)
    (reqIp : Option String) (now : Int) (s : Int) (b : Json)
    (h : (rateLimiterStep opts r reqIp now).2 = Decision.reject s b) :
    s = 429 ∧ b = Json.str "Too many requests" := by
  rw [rateLimiterStep_eq] at h
  by_cases hfull : opts.maxRequests ≤ ((prunedSeq opts r (clientKey reqIp) now).length : Int)
  · rw [if_pos hfull] at h
    injection h with h1 h2
    exact ⟨h1.symm, h2.symm⟩
  · rw [if_neg hfull] at h
    exact Decision.noConfusion h

/-- Witness for C7: with `maxRequests = 0` the very first request rejects,
and its status and body are as claimed. -/
theorem C7_rejection_payload_witness :
    (429 : Int) = 429 ∧ Json.str "Too many requests" = Json.str "Too many requests" :=
  C7_rejection_payload optsZ [] (some "a") 1700000000000 429
    (Json.str "Too many requests") rfl

/-- C8 — Independent buckets: an invocation for client key `A = clientKey
reqIpA` leaves the registry entry of any other key `B` unchanged, and the
decision of a subsequent invocation for key `B` is the same as it would have
been without the key-`A` invocation. -/
theorem C8_independent_buckets (opts : IRateLimiterOptions) (r : Registry)
    (reqIpA reqIpB : Option String) (nowA nowB : Int) (B : String)
    (hB : clientKey reqIpB = B) (hne : B ≠ clientKey reqIpA) :
    regGet (rateLimiterStep opts r reqIpA nowA).1 B = regGet r B ∧
    (rateLimiterStep opts (rateLimiterStep opts r reqIpA nowA).1 reqIpB nowB).2
      = (rateLimiterStep opts r reqIpB nowB).2 := by
  have hframe := rateLimiterStep_frame opts r reqIpA nowA B hne
  refine ⟨hframe, ?_⟩
  rw [rateLimiterStep_snd_eq, rateLimiterStep_snd_eq]
  have hsame : prunedSeq opts (rateLimiterStep opts r reqIpA nowA).1 (clientKey reqIpB) nowB
      = prunedSeq opts r (clientKey reqIpB) nowB := by
    unfold prunedSeq
    rw [hB, hframe]
  rw [hsame]

/-- Witness for C8: a request from key `"a"` does not disturb the (absent)
entry of key `"b"` nor the decision of `"b"`'s next request. -/
theorem C8_independent_buckets_witness :
    regGet (rateLimiterStep optsA [] (some "a") 1700000000000).1 "b" = regGet [] "b" ∧
    (rateLimiterStep optsA (rateLimiterStep optsA [] (some "a") 1700000000000).1
        (some "b") 1700000000001).2
      = (rateLimiterStep optsA [] (some "b") 1700000000001).2 :=
  C8_independent_buckets optsA [] (some "a") (some "b") 1700000000000 1700000000001 "b"
    (by decide) (by decide)

/-- C9 — Missing-client-key fallback: when `req.ip` is absent or the empty
string, the middleware uses the fixed sentinel key `"unknown"` and behaves
exactly as it would for a request whose key is `"unknown"`: the decision is
still made normally and all such requests share that one bucket. -/
theorem C9_fallback_key (opts : IRateLimiterOptions) (r : Registry)
    (reqIp : Option String) (now : Int)
    (h : reqIp = none ∨ reqIp = some "") :
    clientKey reqIp = "unknown" ∧
    rateLimiterStep opts r reqIp now = rateLimiterStep opts r (some "unknown") now := by
  have hk : clientKey reqIp = "unknown" := by
    rcases h with h | h <;> rw [h] <;> decide
  have hu : clientKey (some "unknown") = "unknown" := by decide
  refine ⟨hk, ?_⟩
  unfold rateLimiterStep
  rw [hk, hu]

/-- Witness for C9: a request with no `req.ip` lands in the `"unknown"`
bucket. -/
theorem C9_fallback_key_witness :
    clientKey none = "unknown" ∧
    rateLimiterStep optsA [] none 1700000000000
      = rateLimiterStep optsA [] (some "unknown") 1700000000000 :=
  C9_fallback_key optsA [] none 1700000000000 (Or.inl rfl)

/-- C10 — Implicit permanent lockout: when the registry already holds at
least `maxRequests` timestamps for a client key and all timestamps involved
are genuine `Date.now()` epoch-millisecond readings (stored values at least
`epoch`, later clock readings below `1000 * epoch`, as holds for every real
clock since 1970), the code's filter keeps every stored entry, so every
subsequent request from that key — no matter how much later — is rejected
with 429 and the stored entries survive unchanged. -/
theorem C10_permanent_lockout (opts : IRateLimiterOptions) (reqIp : Option String)
    (vals : List Int) (epoch : Int)
    (hw : 0 < opts.windowInSeconds)
    (hfull : opts.maxRequests ≤ (vals.length : Int))
    (hvals : ∀ v ∈ vals, epoch ≤ v) :
    ∀ (times : List Int) (r : Registry),
      regGet r (clientKey reqIp) = some vals →
      (∀ t ∈ times, t < 1000 * epoch) →
      (runCalls opts r (times.map (fun t => (reqIp, t)))).2
        = List.replicate times.length (Decision.reject 429 (Json.str "Too many requests")) ∧
      regGet (runCalls opts r (times.map (fun t => (reqIp, t)))).1 (clientKey reqIp)
        = some vals := by
  intro times
  induction times with
  | nil =>
      intro r hget _
      exact ⟨rfl, hget⟩
  | cons now rest ih =>
      intro r hget htimes
      have hkeep : prunedSeq opts r (clientKey reqIp) now = vals := by
        unfold prunedSeq
        rw [hget]
        simp only [Option.getD_some]
        refine List.filter_eq_self.mpr (fun v hv => decide_eq_true ?_)
        have h1 : epoch ≤ v := hvals v hv
        have h2 : now < 1000 * epoch := htimes now (by simp)
        linarith
      have hstep := rateLimiterStep_reject opts r reqIp now
        (by rw [hkeep]; exact hfull)
      rw [List.map_cons, runCalls_cons, hstep]
      have hget' : regGet (regSet r (clientKey reqIp) vals) (clientKey reqIp) = some vals := by
        rw [regGet_regSet_self]
      have htimes' : ∀ t ∈ rest, t < 1000 * epoch :=
        fun t ht => htimes t (List.mem_cons_of_mem _ ht)
      have hrec := ih (regSet r (clientKey reqIp) vals) hget' htimes'
      rw [hkeep]
      refine ⟨?_, hrec.2⟩
      simp only [List.length_cons, List.replicate_succ]
      exact congrArg _ hrec.1

/-- Witness for C10: a client with one stored timestamp and `maxRequests = 1`
is rejected a full minute and a second later, the stale entry surviving. -/
theorem C10_permanent_lockout_witness :
    (runCalls optsA [("a", [1700000000000])]
        ([1700000060001].map (fun t => ((some "a" : Option String), t)))).2
      = List.replicate (List.length [(1700000060001 : Int)])
          (Decision.reject 429 (Json.str "Too many requests")) ∧
    regGet (runCalls optsA [("a", [1700000000000])]
        ([1700000060001].map (fun t => ((some "a" : Option String), t)))).1
        (clientKey (some "a"))
      = some [1700000000000] :=
  C10_permanent_lockout optsA (some "a") [1700000000000] 1700000000000
    (by decide) (by decide) (by decide) [1700000060001] [("a", [1700000000000])]
    (by decide) (by decide)
